import Mathlib

/-!
Shallow embedding of the code-execution service in `ide/views.py`
(`ExecuteCodeView` and `ExecuteAllCodeView`).

External effects are made explicit:
  * the filesystem is a list of existing path names (`SysState.fs`);
  * the Jupyter kernel pool (`ExecuteCodeView.kernels`) is a map from a
    language to a kernel identifier (`SysState.kernels`, kernels are
    numbered by a fresh counter `SysState.nextId`);
  * the per-call behaviour of the external world (the shell-channel reply,
    the stream of IOPub messages, the result of the `subprocess.run` child
    and the path handed out by `tempfile.NamedTemporaryFile`) is an `Env`
    parameter;
  * a `(result, error)` pair returned by a pipeline is `ExecResult.ok` /
    `ExecResult.err`; an exception escaping a pipeline is
    `ExecResult.raised`.
-/

/-- Python `str.split()` (split on whitespace runs, dropping empties),
working on the character list. -/
def splitWsAux : List Char → List Char → List String
  | [], [] => []
  | [], cur => [String.mk cur.reverse]
  | c :: cs, cur =>
    if c.isWhitespace then
      match cur with
      | [] => splitWsAux cs []
      | _ => String.mk cur.reverse :: splitWsAux cs []
    else splitWsAux cs (c :: cur)

/-- `code.split()` from line 147 of `views.py`. -/
def splitTokens (code : String) : List String := splitWsAux code.data []

/-- Python `s.rstrip(".java")`: strip trailing characters drawn from the
character set of `".java"` (line 201 of `views.py`). -/
def rstrip_java (s : String) : String :=
  String.mk (s.data.reverse.dropWhile
    (fun c => c == '.' || c == 'j' || c == 'a' || c == 'v')).reverse

/-- Python `'\n'.join(list)`. -/
def joinNL : List String → String
  | [] => ""
  | [s] => s
  | s :: rest => s ++ "\n" ++ joinNL rest

/-- Python `dict.get(key, None)` over a literal association list. -/
def dictGet {α : Type} : List (String × α) → String → Option α
  | [], _ => none
  | (k, v) :: rest, key => if key = k then some v else dictGet rest key

/-- Python truthiness of an optional string field from `request.data.get`:
`None` and `""` are falsy. -/
def truthy : Option String → Option String
  | some s => if s = "" then none else some s
  | none => none

/-- Result contract of a pipeline method: a `(result, error)` pair with
exactly one side populated, or an exception escaping the method. -/
inductive ExecResult where
  | ok (output : String)
  | err (message : String)
  | raised (exn : String)
deriving DecidableEq

/-- Captured outcome of `subprocess.run` (line 167 of `views.py`). -/
structure ProcResult where
  returncode : Int
  stdout : String
  stderr : String
deriving DecidableEq

/-- Reply content of a shell-channel message: the `status` field plus the
optional `evalue` field (lines 104-127 of `views.py`). -/
structure ReplyContent where
  status : String
  evalue : Option String
deriving DecidableEq

/-- What `kc.get_shell_msg(timeout=10)` yields: a `queue.Empty` timeout, a
reply missing the `content`/`status` keys, or a well-shaped reply. -/
inductive ShellMsg where
  | timeout
  | malformed
  | reply (c : ReplyContent)
deriving DecidableEq

/-- One IOPub message as consumed by the drain loop (lines 107-119 of
`views.py`); payload fields carry their dict-`get` defaults already. -/
inductive IOPubMsg where
  | executeResult (textPlain : String)
  | stream (text : String)
  | errorMsg (traceback : List String)
  | statusMsg (executionState : String)
  | other
deriving DecidableEq

/-- Per-call behaviour of the external world. -/
structure Env where
  shell : ShellMsg
  iopub : List IOPubMsg
  proc : ProcResult
  allocPath : String
deriving DecidableEq

/-- Process-wide mutable state: the kernel pool (class attribute
`ExecuteCodeView.kernels`), a fresh-kernel counter and the filesystem. -/
structure SysState where
  kernels : String → Option Nat
  nextId : Nat
  fs : List String

/-- Add a path to the filesystem (creating a file; no duplicates). -/
def fsAdd (p : String) (fs : List String) : List String :=
  if p ∈ fs then fs else p :: fs

/-- `os.remove`: drop a path from the filesystem. -/
def fsRemove (p : String) (fs : List String) : List String :=
  fs.filter (fun q => q ≠ p)

/-- Point update of the kernel map. -/
def updateKernels (m : String → Option Nat) (k : String) (v : Nat) :
    String → Option Nat :=
  fun x => if x = k then some v else m x

/-- Point update of the ordered-code session map. -/
def updateSessions (m : String → List String) (k : String) (v : List String) :
    String → List String :=
  fun x => if x = k then v else m x

/-- The `kernels` dict literal inside `get_kernel_name` (lines 186-194). -/
def kernel_name_dict : List (String × String) :=
  [("python", "python3"), ("javascript", "javascript"), ("r", "ir"),
   ("java", "java"), ("cpp", "xeus-cling"), ("c", "clang")]

/-- `ExecuteCodeView.get_kernel_name` (lines 185-196 of `views.py`). -/
def get_kernel_name (language : String) : Option String :=
  dictGet kernel_name_dict language

/-- `ExecuteCodeView.get_execution_command` (lines 198-205 of `views.py`). -/
def get_execution_command (language file_path : String) : Option String :=
  dictGet
    [("cpp", "g++ " ++ file_path ++ " -o " ++ file_path ++ ".out && "
        ++ file_path ++ ".out"),
     ("java", "javac " ++ file_path ++ " && java " ++ rstrip_java file_path),
     ("c", "gcc " ++ file_path ++ " -o " ++ file_path ++ ".out && "
        ++ file_path ++ ".out")]
    language

/-- `ExecuteCodeView.get_file_extension` (lines 207-217 of `views.py`). -/
def get_file_extension (language : String) : String :=
  (dictGet
    [("python", ".py"), ("javascript", ".js"), ("cpp", ".cpp"),
     ("java", ".java"), ("r", ".R"), ("c", ".c")] language).getD ""

/-- The message returned when `queue.Empty` is caught (line 134). -/
def timeout_message : String :=
  "Execution timed out. The code may be too complex or there could be a kernel issue."

/-- Result of the IOPub drain loop. -/
inductive DrainResult where
  | done (fragments : List String)
  | failed (message : String)
  | timedOut
deriving DecidableEq

/-- The drain loop, lines 107-119 of `views.py`: read messages until a
status-idle message; `execute_result`/`stream` contribute fragments; an
`error` message returns the joined traceback at once; running out of
messages models `queue.Empty` on `get_iopub_msg(timeout=10)`. -/
def drain : List IOPubMsg → List String → DrainResult
  | [], _ => .timedOut
  | msg :: rest, acc =>
    match msg with
    | .executeResult t => drain rest (acc ++ [t])
    | .stream t => drain rest (acc ++ [t])
    | .errorMsg tb => .failed (joinNL tb)
    | .statusMsg s => if s = "idle" then .done acc else drain rest acc
    | .other => drain rest acc

/-- Line 121 of `views.py`: `'\n'.join(result_msgs) or "executed
succesfully."` — the placeholder replaces a falsy (empty) joined string. -/
def finalize (fragments : List String) : String :=
  let r := joinNL fragments
  if r = "" then "executed succesfully." else r

/-- `ExecuteCodeView.execute_code_with_jupyter` (lines 80-141 of
`views.py`). Returns the `(result, error)` pair, the new process state and
the identifier of the kernel the code was submitted to (if any). -/
def execute_code_with_jupyter (language _code : String) (env : Env)
    (st : SysState) : ExecResult × SysState × Option Nat :=
  match get_kernel_name language with
  | none => (.err ("Unsupported language: " ++ language), st, none)
  | some _kernelName =>
    let (k, kernels, nextId) :=
      match st.kernels language with
      | none => (st.nextId, updateKernels st.kernels language st.nextId,
                 st.nextId + 1)
      | some k => (k, st.kernels, st.nextId)
    let st2 : SysState := { st with kernels := kernels, nextId := nextId }
    let result : ExecResult :=
      match env.shell with
      | .timeout => .err timeout_message
      | .malformed => .err "Invalid reply from kernel"
      | .reply c =>
        if c.status = "ok" then
          match drain env.iopub [] with
          | .done fragments => .ok (finalize fragments)
          | .failed m => .err m
          | .timedOut => .err timeout_message
        else .err (c.evalue.getD "Unknown error occurred during execution")
    (result, st2, some k)

/-- The `tmp_file_name` derived at lines 146-150 of `views.py`: the
third whitespace token of the code plus `.java` for Java, the literal
`temp_file` otherwise. -/
def tmp_file_name_of (language code : String) : String :=
  if language = "java" then ((splitTokens code).getD 2 "") ++ ".java"
  else "temp_file"

/-- The `finally` block at lines 179-183 of `views.py`: remove
`tmp_file_name` if truthy and existing, *else* remove `tmp_file_path` if
truthy and existing (an `elif`, so at most one file is removed). -/
def cleanupFs (name path : String) (fs : List String) : List String :=
  if name ≠ "" ∧ name ∈ fs then fsRemove name fs
  else if path ≠ "" ∧ path ∈ fs then fsRemove path fs
  else fs

/-- `ExecuteCodeView.execute_compiled_code` (lines 143-183 of `views.py`).
For Java code with fewer than three whitespace tokens, `code.split()[2]`
raises `IndexError`, the `except` block prepares an error return, and the
`finally` block then evaluates the never-assigned `tmp_file_path`,
raising `UnboundLocalError` out of the method. Otherwise: write the code
to the allocated temp file, rename it for Java, run the compile-and-run
command, and clean up in `finally`. -/
def execute_compiled_code (language code : String) (env : Env)
    (st : SysState) : ExecResult × SysState :=
  if language = "java" ∧ (splitTokens code).length < 3 then
    (.raised "UnboundLocalError", st)
  else
    let name := tmp_file_name_of language code
    let fs1 := fsAdd env.allocPath st.fs
    let pf : String × List String :=
      if language = "java" then (name, fsAdd name (fsRemove env.allocPath fs1))
      else (env.allocPath, fs1)
    let r : ExecResult :=
      match get_execution_command language pf.1 with
      | none => .err ("Unsupported language: " ++ language)
      | some _cmd =>
          if env.proc.returncode = 0 then .ok env.proc.stdout
          else .err env.proc.stderr
    (r, { st with fs := cleanupFs name env.allocPath pf.2 })

/-- `ExecuteCodeView.execute_html_css` (lines 58-78 of `views.py`): write
the code to a temp `.html` file, open it, keep the file, report success
with the file location. -/
def execute_html_css (_code : String) (env : Env) (st : SysState) :
    ExecResult × SysState :=
  (.ok ("HTML/CSS executed successfully. View it at: file://" ++ env.allocPath),
   { st with fs := fsAdd env.allocPath st.fs })

/-- `ExecuteCodeView.execute_code` (lines 50-56 of `views.py`): strategy
dispatch on the language identifier. -/
def execute_code (language code _block_id : String) (env : Env)
    (st : SysState) : ExecResult × SysState :=
  if language ∈ (["cpp", "java", "c"] : List String) then
    execute_compiled_code language code env st
  else if language ∈ (["html", "css"] : List String) then
    execute_html_css code env st
  else
    let out := execute_code_with_jupyter language code env st
    (out.1, out.2.1)

/-- The accumulation step at lines 33-37 of `views.py`: append the code to
the language's session list, then join the full list with newlines. -/
def append_and_join (sessions : String → List String) (language code : String) :
    String × (String → List String) :=
  (joinNL (sessions language ++ [code]),
   updateSessions sessions language (sessions language ++ [code]))

/-- One HTTP request body for `ExecuteCodeView.post`. -/
structure Request where
  code : Option String
  language : Option String
  block_id : Option String
  execute_in_order : Bool

/-- Response of `ExecuteCodeView.post`: 200 with output, 400 validation
error, 500 execution error, or an exception escaping the view. -/
inductive PostResponse where
  | ok (output : String)
  | clientError (message : String)
  | serverError (message : String)
  | raisedResp (exn : String)
deriving DecidableEq

/-- How `post` maps a pipeline outcome to its HTTP response
(lines 42-48 of `views.py`). -/
def respOf : ExecResult → PostResponse
  | .ok out => .ok out
  | .err e => .serverError e
  | .raised m => .raisedResp m

/-- `ExecuteCodeView.post` (lines 18-48 of `views.py`): validate the
truthiness of `code` and `language`; in ordered mode append to the
session ledger and execute the joined program, otherwise execute the
snippet alone; map the outcome pair to a response. Returns the response,
the new process state, and the new session ledger. -/
def post (req : Request) (env : Env) (st : SysState)
    (sessions : String → List String) :
    PostResponse × SysState × (String → List String) :=
  match truthy req.code, truthy req.language with
  | some code, some language =>
    let fcs : String × (String → List String) :=
      if req.execute_in_order then append_and_join sessions language code
      else (code, sessions)
    let out := execute_code language fcs.1 (req.block_id.getD "") env st
    (respOf out.1, out.2, fcs.2)
  | _, _ => (.clientError "Code or language not provided", st, sessions)

/-- One entry of the batch request body (`ExecuteAllCodeView.post`). -/
structure CodeBlock where
  block_id : Option String
  code : Option String
deriving DecidableEq

/-- One entry of the batch result map: `{"output": ...}` or
`{"error": ...}`. -/
inductive BatchEntry where
  | output (s : String)
  | error (s : String)
deriving DecidableEq

/-- Python dict assignment `d[k] = v` on an insertion-ordered association
list: replace an existing binding in place, else append. -/
def dictSet {α : Type} : List (String × α) → String → α → List (String × α)
  | [], k, v => [(k, v)]
  | (k1, v1) :: rest, k, v =>
    if k1 = k then (k1, v) :: rest else (k1, v1) :: dictSet rest k v

/-- The loop of `ExecuteAllCodeView.post` (lines 237-254 of `views.py`),
parametric in the executor standing for `self.execute_code`. A block whose
`code` or `block_id` is falsy is skipped with no entry; an error outcome
produces an error entry; an exception escaping the executor aborts the
whole batch (`Except.error`). -/
def executeAllLoop (exec : String → String → String → ExecResult)
    (language : String) :
    List CodeBlock → List (String × BatchEntry) →
    Except String (List (String × BatchEntry))
  | [], acc => .ok acc
  | b :: rest, acc =>
    match truthy b.block_id, truthy b.code with
    | some bid, some c =>
      match exec language c bid with
      | .raised m => .error m
      | .ok out => executeAllLoop exec language rest (dictSet acc bid (.output out))
      | .err e => executeAllLoop exec language rest (dictSet acc bid (.error e))
    | _, _ => executeAllLoop exec language rest acc

/-- `ExecuteAllCodeView.post` body after validation: iterate the blocks in
submission order starting from an empty result map. -/
def executeAllPost (exec : String → String → String → ExecResult)
    (language : String) (blocks : List CodeBlock) :
    Except String (List (String × BatchEntry)) :=
  executeAllLoop exec language blocks []

/-- The per-block outcome map described by the spec: blocks in submission
order, each well-formed block mapped independently to its own outcome,
ill-formed blocks skipped with no entry. -/
def executeAllSpec (exec : String → String → String → ExecResult)
    (language : String) (blocks : List CodeBlock) :
    List (String × BatchEntry) :=
  blocks.filterMap fun b =>
    match truthy b.block_id, truthy b.code with
    | some bid, some c =>
      match exec language c bid with
      | .ok out => some (bid, .output out)
      | .err e => some (bid, .error e)
      | .raised _ => none
    | _, _ => none

/-- The block identifiers of the well-formed blocks, in order. -/
def batchIds (blocks : List CodeBlock) : List String :=
  blocks.filterMap fun b =>
    match truthy b.block_id, truthy b.code with
    | some bid, some _ => some bid
    | _, _ => none

/-- Whether an outcome is an exception escaping the pipeline. -/
def isRaisedB : ExecResult → Bool
  | .raised _ => true
  | _ => false

/-- Whether executing a batch block would let an exception escape (a
skipped ill-formed block cannot). -/
def blockRaises (exec : String → String → String → ExecResult)
    (language : String) (b : CodeBlock) : Bool :=
  match truthy b.block_id, truthy b.code with
  | some bid, some c => isRaisedB (exec language c bid)
  | _, _ => false

/-- The language identifiers configured anywhere in the source: the
compiled set (line 51), the markup set (line 53) and the keys of the
kernel-name dict (lines 186-194). -/
def configured_languages : List String :=
  ["cpp", "java", "c"] ++ ["html", "css"] ++ kernel_name_dict.map Prod.fst

/-- Classification of an IOPub message as terminating the drain loop. -/
def isTerminal : IOPubMsg → Bool
  | .errorMsg _ => true
  | .statusMsg s => s = "idle"
  | _ => false

/-- Fragment contributed by a non-terminal IOPub message. -/
def fragmentOf : IOPubMsg → Option String
  | .executeResult t => some t
  | .stream t => some t
  | _ => none

/-! ## Helper lemmas -/

lemma mem_fsAdd {q p : String} {fs : List String} :
    q ∈ fsAdd p fs ↔ q = p ∨ q ∈ fs := by
  simp only [fsAdd]
  split
  · rename_i hp
    constructor
    · exact Or.inr
    · rintro (rfl | hq)
      · exact hp
      · exact hq
  · simp [List.mem_cons]

lemma mem_fsRemove {q p : String} {fs : List String} :
    q ∈ fsRemove p fs ↔ q ∈ fs ∧ q ≠ p := by
  simp [fsRemove, List.mem_filter]

lemma cleanupFs_name_not_mem {name path : String} {fs : List String}
    (h : name ≠ "") : name ∉ cleanupFs name path fs := by
  unfold cleanupFs
  split
  · simp [mem_fsRemove]
  · rename_i hcond
    have hnm : name ∉ fs := fun hm => hcond ⟨h, hm⟩
    split
    · intro hm
      exact hnm (mem_fsRemove.mp hm).1
    · exact hnm

lemma cleanupFs_path_not_mem {name path : String} {fs : List String}
    (hp : path ≠ "") (hn : name ∉ fs) : path ∉ cleanupFs name path fs := by
  unfold cleanupFs
  split
  · rename_i hcond
    exact absurd hcond.2 hn
  · split
    · simp [mem_fsRemove]
    · rename_i _ hcond2
      exact fun hm => hcond2 ⟨hp, hm⟩

lemma cleanupFs_subset {q name path : String} {fs : List String}
    (h : q ∈ cleanupFs name path fs) : q ∈ fs := by
  unfold cleanupFs at h
  split at h
  · exact (mem_fsRemove.mp h).1
  · split at h
    · exact (mem_fsRemove.mp h).1
    · exact h

lemma append_java_ne_empty (s : String) : s ++ ".java" ≠ "" := by
  intro h
  have hd := congrArg String.data h
  simp [String.data_append] at hd

/-! ## Claim C1 -/

/-- Claim C1: for every language L, submitting snippets A then B in ordered
mode executes the newline join "A\nB" on the second call, a third ordered
snippet C executes "A\nB\nC", and in general the effective program of an
ordered request is the newline join of all snippets accumulated for L in
submission order, including the just-appended one. -/
theorem claim1_ordered_accumulation (sessions : String → List String)
    (L A B C : String) (h : sessions L = []) :
    (append_and_join sessions L A).1 = A
    ∧ (append_and_join (append_and_join sessions L A).2 L B).1
        = A ++ "\n" ++ B
    ∧ (append_and_join (append_and_join (append_and_join sessions L A).2 L B).2 L C).1
        = A ++ "\n" ++ B ++ "\n" ++ C
    ∧ ∀ (s : String → List String) (c : String),
        (append_and_join s L c).1 = joinNL (s L ++ [c]) := by
  refine ⟨?_, ?_, ?_, fun s c => rfl⟩
  · simp [append_and_join, h, joinNL]
  · simp [append_and_join, updateSessions, h, joinNL]
  · simp [append_and_join, updateSessions, h, joinNL, String.append_assoc]

/-- Concrete instance of claim C1: three ordered snippets starting from an
empty ledger. -/
theorem claim1_ordered_accumulation_witness :
    (append_and_join (fun _ => ([] : List String)) "python" "a").1 = "a"
    ∧ (append_and_join
        (append_and_join (fun _ => ([] : List String)) "python" "a").2
        "python" "b").1 = "a" ++ "\n" ++ "b"
    ∧ (append_and_join
        (append_and_join
          (append_and_join (fun _ => ([] : List String)) "python" "a").2
          "python" "b").2 "python" "c").1
        = "a" ++ "\n" ++ "b" ++ "\n" ++ "c" := by
  have h := claim1_ordered_accumulation (fun _ => ([] : List String))
    "python" "a" "b" "c" rfl
  exact ⟨h.1, h.2.1, h.2.2.1⟩

/-! ## Claim C10 -/

/-- Claim C10: an ordered request appends the snippet to the accumulation
ledger before the pipeline runs, for every possible behaviour of the
execution environment — including failing executions — and the snippet is
never removed afterwards, so the next ordered request replays it as part
of its effective program. -/
theorem claim10_ledger_persists_on_failure (sessions : String → List String)
    (env : Env) (st : SysState) (L c : String) (bid : Option String)
    (hc : c ≠ "") (hL : L ≠ "") :
    (post ⟨some c, some L, bid, true⟩ env st sessions).2.2 L
        = sessions L ++ [c]
    ∧ ∀ c2 : String,
        (append_and_join
          (post ⟨some c, some L, bid, true⟩ env st sessions).2.2 L c2).1
          = joinNL (sessions L ++ [c] ++ [c2]) := by
  constructor
  · simp [post, truthy, hc, hL, append_and_join, updateSessions]
  · intro c2
    simp [post, truthy, hc, hL, append_and_join, updateSessions]

/-- Concrete instance of claim C10: the Jupyter shell channel times out,
so the execution fails with a 500 response, yet the snippet stays in the
ledger and the next ordered program replays it. -/
theorem claim10_ledger_persists_on_failure_witness :
    (post ⟨some "boom(", some "python", none, true⟩
        ⟨ShellMsg.timeout, [], ⟨0, "", ""⟩, ""⟩
        ⟨fun _ => none, 0, []⟩ (fun _ => [])).2.2 "python"
      = (fun _ => ([] : List String)) "python" ++ ["boom("]
    ∧ (append_and_join
        (post ⟨some "boom(", some "python", none, true⟩
          ⟨ShellMsg.timeout, [], ⟨0, "", ""⟩, ""⟩
          ⟨fun _ => none, 0, []⟩ (fun _ => [])).2.2 "python" "next").1
      = joinNL ((fun _ => ([] : List String)) "python" ++ ["boom("] ++ ["next"]) := by
  have h := claim10_ledger_persists_on_failure (fun _ => [])
    ⟨ShellMsg.timeout, [], ⟨0, "", ""⟩, ""⟩
    ⟨fun _ => none, 0, []⟩ "python" "boom(" none (by decide) (by decide)
  exact ⟨h.1, h.2 "next"⟩

/-! ## Claim C3 -/

/-- Claim C3: whenever the compiled pipeline reaches the compile-and-run
child process (the language has a command, and for Java the class-name
extraction succeeds), the outcome is Success with exactly the captured
stdout on exit code 0, and Failure with exactly the captured stderr on a
nonzero exit code. -/
theorem claim3_compiled_outcome (language code : String) (env : Env)
    (st : SysState)
    (hlang : language ∈ (["cpp", "java", "c"] : List String))
    (hjava : language = "java" → 3 ≤ (splitTokens code).length) :
    (execute_compiled_code language code env st).1
      = (if env.proc.returncode = 0 then ExecResult.ok env.proc.stdout
         else ExecResult.err env.proc.stderr) := by
  simp only [List.mem_cons, List.mem_singleton, List.not_mem_nil, or_false] at hlang
  rcases hlang with h | h | h <;> subst h
  · simp [execute_compiled_code, get_execution_command, dictGet]
  · have h3 := hjava rfl
    have h4 : ¬ ((splitTokens code).length < 3) := by omega
    simp [execute_compiled_code, get_execution_command, dictGet, h4]
  · simp [execute_compiled_code, get_execution_command, dictGet]

/-- Concrete instance of claim C3: a C++ run exiting 0 yields its stdout;
the same run exiting 1 yields its stderr. -/
theorem claim3_compiled_outcome_witness :
    (execute_compiled_code "cpp" "int main() { return 0; }"
        ⟨ShellMsg.timeout, [], ⟨0, "hello", "oops"⟩, "/tmp/t.cpp"⟩
        ⟨fun _ => none, 0, []⟩).1 = ExecResult.ok "hello"
    ∧ (execute_compiled_code "cpp" "int main() { return 0; }"
        ⟨ShellMsg.timeout, [], ⟨1, "hello", "oops"⟩, "/tmp/t.cpp"⟩
        ⟨fun _ => none, 0, []⟩).1 = ExecResult.err "oops" := by
  constructor
  · have h := claim3_compiled_outcome "cpp" "int main() { return 0; }"
      ⟨ShellMsg.timeout, [], ⟨0, "hello", "oops"⟩, "/tmp/t.cpp"⟩
      ⟨fun _ => none, 0, []⟩ (by decide) (by intro h; exact absurd h (by decide))
    simpa using h
  · have h := claim3_compiled_outcome "cpp" "int main() { return 0; }"
      ⟨ShellMsg.timeout, [], ⟨1, "hello", "oops"⟩, "/tmp/t.cpp"⟩
      ⟨fun _ => none, 0, []⟩ (by decide) (by intro h; exact absurd h (by decide))
    simpa using h

/-! ## Claim C9 -/

/-- Claim C9 (code bug): the compiled pipeline is supposed to return an
outcome pair for every input, but for Java code with fewer than three
whitespace tokens `code.split()[2]` raises `IndexError`, and the
`finally` block then reads the never-assigned `tmp_file_path`, raising
`UnboundLocalError` past the method boundary. -/
theorem claim9_compiled_raises :
    (execute_compiled_code "java" "x"
        ⟨ShellMsg.timeout, [], ⟨0, "", ""⟩, "/tmp/a.java"⟩
        ⟨fun _ => none, 0, []⟩).1 = ExecResult.raised "UnboundLocalError" := by
  decide

/-! ## Claim C8 -/

/-- Claim C8: for every request whose language identifier is outside the
configured language set, `execute_code` returns a Failure naming that
language; the compiled pipeline's own guard reports the same failure. -/
theorem claim8_unsupported_language (language : String)
    (h : language ∉ configured_languages) (code bid : String) (env : Env)
    (st : SysState) :
    (execute_code language code bid env st).1
      = ExecResult.err ("Unsupported language: " ++ language)
    ∧ (execute_compiled_code language code env st).1
      = ExecResult.err ("Unsupported language: " ++ language) := by
  have h1 : language ≠ "cpp" := fun e =>
    h (by simp [configured_languages, kernel_name_dict, e])
  have h2 : language ≠ "java" := fun e =>
    h (by simp [configured_languages, kernel_name_dict, e])
  have h3 : language ≠ "c" := fun e =>
    h (by simp [configured_languages, kernel_name_dict, e])
  have h4 : language ≠ "html" := fun e =>
    h (by simp [configured_languages, kernel_name_dict, e])
  have h5 : language ≠ "css" := fun e =>
    h (by simp [configured_languages, kernel_name_dict, e])
  have h6 : language ≠ "python" := fun e =>
    h (by simp [configured_languages, kernel_name_dict, e])
  have h7 : language ≠ "javascript" := fun e =>
    h (by simp [configured_languages, kernel_name_dict, e])
  have h8 : language ≠ "r" := fun e =>
    h (by simp [configured_languages, kernel_name_dict, e])
  constructor
  · simp [execute_code, execute_code_with_jupyter, get_kernel_name,
      kernel_name_dict, dictGet, h1, h2, h3, h4, h5, h6, h7, h8]
  · simp [execute_compiled_code, get_execution_command, dictGet,
      h1, h2, h3]

/-- Concrete instance of claim C8: the language "ruby" is rejected by name
on both the dispatcher and the compiled pipeline. -/
theorem claim8_unsupported_language_witness :
    (execute_code "ruby" "puts 1" "b1"
        ⟨ShellMsg.timeout, [], ⟨0, "", ""⟩, ""⟩
        ⟨fun _ => none, 0, []⟩).1
      = ExecResult.err ("Unsupported language: " ++ "ruby")
    ∧ (execute_compiled_code "ruby" "puts 1"
        ⟨ShellMsg.timeout, [], ⟨0, "", ""⟩, ""⟩
        ⟨fun _ => none, 0, []⟩).1
      = ExecResult.err ("Unsupported language: " ++ "ruby") :=
  claim8_unsupported_language "ruby" (by decide) "puts 1" "b1"
    ⟨ShellMsg.timeout, [], ⟨0, "", ""⟩, ""⟩ ⟨fun _ => none, 0, []⟩

/-! ## Drain-loop lemmas -/

lemma drain_timedOut_of_no_terminal (msgs : List IOPubMsg)
    (h : ∀ m ∈ msgs, isTerminal m = false) (acc : List String) :
    drain msgs acc = DrainResult.timedOut := by
  induction msgs generalizing acc with
  | nil => rfl
  | cons m rest ih =>
    have hm := h m (by simp)
    have hrest : ∀ x ∈ rest, isTerminal x = false :=
      fun x hx => h x (by simp [hx])
    cases m with
    | executeResult t => simpa [drain] using ih hrest _
    | stream t => simpa [drain] using ih hrest _
    | errorMsg tb => simp [isTerminal] at hm
    | statusMsg s =>
      simp [isTerminal] at hm
      simpa [drain, hm] using ih hrest _
    | other => simpa [drain] using ih hrest _

lemma drain_no_terminal_append (pre : List IOPubMsg)
    (h : ∀ m ∈ pre, isTerminal m = false) (rest : List IOPubMsg)
    (acc : List String) :
    drain (pre ++ rest) acc = drain rest (acc ++ pre.filterMap fragmentOf) := by
  induction pre generalizing acc with
  | nil => simp
  | cons m pr ih =>
    have hm := h m (by simp)
    have hpr : ∀ x ∈ pr, isTerminal x = false :=
      fun x hx => h x (by simp [hx])
    cases m with
    | executeResult t =>
      rw [List.cons_append]
      show drain (pr ++ rest) (acc ++ [t]) = _
      rw [ih hpr]
      simp [fragmentOf]
    | stream t =>
      rw [List.cons_append]
      show drain (pr ++ rest) (acc ++ [t]) = _
      rw [ih hpr]
      simp [fragmentOf]
    | errorMsg tb => simp [isTerminal] at hm
    | statusMsg s =>
      simp [isTerminal] at hm
      rw [List.cons_append]
      show (if s = "idle" then DrainResult.done acc else drain (pr ++ rest) acc) = _
      rw [if_neg hm, ih hpr]
      simp [fragmentOf]
    | other =>
      rw [List.cons_append]
      show drain (pr ++ rest) acc = _
      rw [ih hpr]
      simp [fragmentOf]

/-! ## Claim C7 -/

/-- Claim C7: for a supported interactive language, if the shell channel
read times out (`queue.Empty`), or the reply is ok but the output channel
is exhausted without ever delivering a terminating message (each read
timing out), the call returns the execution-timeout Failure instead of
blocking. -/
theorem claim7_timeout (language code : String) (env : Env) (st : SysState)
    (kn : String) (hk : get_kernel_name language = some kn) :
    (env.shell = ShellMsg.timeout →
      (execute_code_with_jupyter language code env st).1
        = ExecResult.err timeout_message)
    ∧ (∀ c, env.shell = ShellMsg.reply c → c.status = "ok" →
        (∀ m ∈ env.iopub, isTerminal m = false) →
        (execute_code_with_jupyter language code env st).1
          = ExecResult.err timeout_message) := by
  constructor
  · intro hs
    cases hkr : st.kernels language <;>
      simp [execute_code_with_jupyter, hk, hkr, hs]
  · intro c hs hok hnt
    have hd := drain_timedOut_of_no_terminal env.iopub hnt []
    cases hkr : st.kernels language <;>
      simp [execute_code_with_jupyter, hk, hkr, hs, hok, hd]

/-- Concrete instance of claim C7: a shell-channel timeout, and an ok
reply followed by a lone stream message with no idle status, both yield
the timeout Failure. -/
theorem claim7_timeout_witness :
    (execute_code_with_jupyter "python" "while True: pass"
        ⟨ShellMsg.timeout, [], ⟨0, "", ""⟩, ""⟩
        ⟨fun _ => none, 0, []⟩).1 = ExecResult.err timeout_message
    ∧ (execute_code_with_jupyter "python" "while True: pass"
        ⟨ShellMsg.reply ⟨"ok", none⟩, [IOPubMsg.stream "partial"], ⟨0, "", ""⟩, ""⟩
        ⟨fun _ => none, 0, []⟩).1 = ExecResult.err timeout_message := by
  constructor
  · exact (claim7_timeout "python" "while True: pass"
      ⟨ShellMsg.timeout, [], ⟨0, "", ""⟩, ""⟩
      ⟨fun _ => none, 0, []⟩ "python3" (by decide)).1 rfl
  · exact (claim7_timeout "python" "while True: pass"
      ⟨ShellMsg.reply ⟨"ok", none⟩, [IOPubMsg.stream "partial"], ⟨0, "", ""⟩, ""⟩
      ⟨fun _ => none, 0, []⟩ "python3" (by decide)).2
      ⟨"ok", none⟩ rfl rfl (by decide)

/-! ## Claim C2 -/

/-- Claim C2 as written is false on two points, witnessed here: with an ok
reply and the output channel delivering one empty stream fragment then
idle, the result is not the newline join of the collected fragments (which
would be the empty string) but the placeholder; and the placeholder text
is "executed succesfully." (sic), not "executed successfully". -/
theorem claim2_drain_counterexample :
    (execute_code_with_jupyter "python" "1+1"
        ⟨ShellMsg.reply ⟨"ok", none⟩,
         [IOPubMsg.stream "", IOPubMsg.statusMsg "idle"], ⟨0, "", ""⟩, ""⟩
        ⟨fun _ => none, 0, []⟩).1 = ExecResult.ok "executed succesfully."
    ∧ ExecResult.ok "executed succesfully." ≠ ExecResult.ok (joinNL [""])
    ∧ (execute_code_with_jupyter "python" "1+1"
        ⟨ShellMsg.reply ⟨"ok", none⟩,
         [IOPubMsg.statusMsg "idle"], ⟨0, "", ""⟩, ""⟩
        ⟨fun _ => none, 0, []⟩).1 ≠ ExecResult.ok "executed successfully" :=
  ⟨by decide, by decide, by decide⟩

/-- Claim C2 (amended): for an interactive execution with an ok reply, the
drain loop reads the output channel until the first terminating message:
`execute_result` messages contribute their text/plain payload and `stream`
messages their text payload; an `error` message makes the call Failure
with the newline-joined traceback, short-circuiting the drain; a
status-idle message terminates it, and the call is then Success with the
fragments joined by newlines if that join is nonempty, and the fixed
placeholder "executed succesfully." if the join is empty. -/
theorem claim2_drain_amended (language code : String) (env : Env)
    (st : SysState) (kn : String) (hk : get_kernel_name language = some kn)
    (c : ReplyContent) (hshell : env.shell = ShellMsg.reply c)
    (hok : c.status = "ok")
    (pre : List IOPubMsg) (hpre : ∀ m ∈ pre, isTerminal m = false) :
    (∀ tb rest, env.iopub = pre ++ IOPubMsg.errorMsg tb :: rest →
      (execute_code_with_jupyter language code env st).1
        = ExecResult.err (joinNL tb))
    ∧ (∀ rest, env.iopub = pre ++ IOPubMsg.statusMsg "idle" :: rest →
      (execute_code_with_jupyter language code env st).1
        = ExecResult.ok (if joinNL (pre.filterMap fragmentOf) = ""
            then "executed succesfully."
            else joinNL (pre.filterMap fragmentOf))) := by
  constructor
  · intro tb rest hio
    have hd : drain env.iopub [] = DrainResult.failed (joinNL tb) := by
      rw [hio, drain_no_terminal_append pre hpre]
      rfl
    cases hkr : st.kernels language <;>
      simp [execute_code_with_jupyter, hk, hkr, hshell, hok, hd]
  · intro rest hio
    have hd : drain env.iopub []
        = DrainResult.done ([] ++ pre.filterMap fragmentOf) := by
      rw [hio, drain_no_terminal_append pre hpre]
      simp [drain]
    cases hkr : st.kernels language <;>
      simp [execute_code_with_jupyter, hk, hkr, hshell, hok, hd, finalize]

/-- Concrete instance of amended claim C2: a stream fragment and an
execute_result fragment before idle join with a newline; a traceback
error short-circuits with the joined traceback. -/
theorem claim2_drain_amended_witness :
    (execute_code_with_jupyter "python" "1+1"
        ⟨ShellMsg.reply ⟨"ok", none⟩,
         [IOPubMsg.stream "out", IOPubMsg.executeResult "2",
          IOPubMsg.statusMsg "idle"], ⟨0, "", ""⟩, ""⟩
        ⟨fun _ => none, 0, []⟩).1 = ExecResult.ok "out\n2"
    ∧ (execute_code_with_jupyter "python" "1/0"
        ⟨ShellMsg.reply ⟨"ok", none⟩,
         [IOPubMsg.errorMsg ["Traceback", "ZeroDivisionError"]],
         ⟨0, "", ""⟩, ""⟩
        ⟨fun _ => none, 0, []⟩).1
      = ExecResult.err "Traceback\nZeroDivisionError" := by
  constructor
  · have h := (claim2_drain_amended "python" "1+1"
      ⟨ShellMsg.reply ⟨"ok", none⟩,
       [IOPubMsg.stream "out", IOPubMsg.executeResult "2",
        IOPubMsg.statusMsg "idle"], ⟨0, "", ""⟩, ""⟩
      ⟨fun _ => none, 0, []⟩ "python3" (by decide) ⟨"ok", none⟩ rfl rfl
      [IOPubMsg.stream "out", IOPubMsg.executeResult "2"] (by decide)).2
      [] rfl
    simpa using h
  · have h := (claim2_drain_amended "python" "1/0"
      ⟨ShellMsg.reply ⟨"ok", none⟩,
       [IOPubMsg.errorMsg ["Traceback", "ZeroDivisionError"]],
       ⟨0, "", ""⟩, ""⟩
      ⟨fun _ => none, 0, []⟩ "python3" (by decide) ⟨"ok", none⟩ rfl rfl
      [] (by decide)).1 ["Traceback", "ZeroDivisionError"] [] rfl
    simpa using h

/-! ## Claim C5 -/

/-- Claim C5: the interactive session pool owns at most one kernel per
language. For a supported language, the kernel is created lazily on the
first request (stored under the language, other languages untouched) and
that same kernel is reused on every later request with no state change;
and no kernel is ever replaced or torn down, whatever the outcome of the
call — in particular after a failed execution. -/
theorem claim5_kernel_pool (language code : String) (env : Env)
    (st : SysState) :
    (∀ kn k, get_kernel_name language = some kn →
      st.kernels language = some k →
      (execute_code_with_jupyter language code env st).2.1 = st
      ∧ (execute_code_with_jupyter language code env st).2.2 = some k)
    ∧ (∀ kn, get_kernel_name language = some kn →
      st.kernels language = none →
      (execute_code_with_jupyter language code env st).2.1.kernels language
          = some st.nextId
      ∧ (execute_code_with_jupyter language code env st).2.2 = some st.nextId
      ∧ (execute_code_with_jupyter language code env st).2.1.nextId
          = st.nextId + 1
      ∧ ∀ l, l ≠ language →
          (execute_code_with_jupyter language code env st).2.1.kernels l
            = st.kernels l)
    ∧ (∀ l k, st.kernels l = some k →
      (execute_code_with_jupyter language code env st).2.1.kernels l
        = some k) := by
  refine ⟨?_, ?_, ?_⟩
  · intro kn k hk hkr
    constructor <;> simp [execute_code_with_jupyter, hk, hkr]
  · intro kn hk hkr
    refine ⟨?_, ?_, ?_, ?_⟩
    · simp [execute_code_with_jupyter, hk, hkr, updateKernels]
    · simp [execute_code_with_jupyter, hk, hkr]
    · simp [execute_code_with_jupyter, hk, hkr]
    · intro l hl
      simp [execute_code_with_jupyter, hk, hkr, updateKernels, hl]
  · intro l k hlk
    cases hk : get_kernel_name language with
    | none => simp [execute_code_with_jupyter, hk, hlk]
    | some kn =>
      cases hkr : st.kernels language with
      | none =>
        have hl : l ≠ language := by
          intro e
          rw [e, hkr] at hlk
          cases hlk
        simp [execute_code_with_jupyter, hk, hkr, updateKernels, hl, hlk]
      | some k2 =>
        simp [execute_code_with_jupyter, hk, hkr, hlk]

/-- Concrete instance of claim C5: the first python request creates kernel
0 even though its execution times out, and a second failing request
reuses kernel 0 without touching the pool. -/
theorem claim5_kernel_pool_witness :
    (execute_code_with_jupyter "python" "x"
        ⟨ShellMsg.timeout, [], ⟨0, "", ""⟩, ""⟩
        ⟨fun _ => none, 0, []⟩).2.1.kernels "python" = some 0
    ∧ (execute_code_with_jupyter "python" "x"
        ⟨ShellMsg.timeout, [], ⟨0, "", ""⟩, ""⟩
        ⟨fun l => if l = "python" then some 0 else none, 1, []⟩).2.1
      = (⟨fun l => if l = "python" then some 0 else none, 1, []⟩ : SysState)
    ∧ (execute_code_with_jupyter "python" "x"
        ⟨ShellMsg.timeout, [], ⟨0, "", ""⟩, ""⟩
        ⟨fun l => if l = "python" then some 0 else none, 1, []⟩).2.2
      = some 0 := by
  have h1 := (claim5_kernel_pool "python" "x"
    ⟨ShellMsg.timeout, [], ⟨0, "", ""⟩, ""⟩
    ⟨fun _ => none, 0, []⟩).2.1 "python3" (by decide) rfl
  have h2 := (claim5_kernel_pool "python" "x"
    ⟨ShellMsg.timeout, [], ⟨0, "", ""⟩, ""⟩
    ⟨fun l => if l = "python" then some 0 else none, 1, []⟩).1 "python3" 0
    (by decide) (by simp)
  exact ⟨h1.1, h2.1, h2.2⟩

/-! ## Claim C6 -/

lemma dictSet_of_not_mem {α : Type} (acc : List (String × α)) (k : String)
    (v : α) (h : k ∉ acc.map Prod.fst) : dictSet acc k v = acc ++ [(k, v)] := by
  induction acc with
  | nil => rfl
  | cons p rest ih =>
    obtain ⟨k1, v1⟩ := p
    simp only [List.map_cons, List.mem_cons, not_or] at h
    have hne : k1 ≠ k := fun e => h.1 e.symm
    simp [dictSet, hne, ih h.2]

lemma executeAllLoop_eq (exec : String → String → String → ExecResult)
    (language : String) (blocks : List CodeBlock)
    (hnr : ∀ b ∈ blocks, blockRaises exec language b = false)
    (hnd : (batchIds blocks).Nodup) (acc : List (String × BatchEntry))
    (hdisj : ∀ bid ∈ batchIds blocks, bid ∉ acc.map Prod.fst) :
    executeAllLoop exec language blocks acc
      = Except.ok (acc ++ executeAllSpec exec language blocks) := by
  induction blocks generalizing acc with
  | nil => simp [executeAllLoop, executeAllSpec]
  | cons b rest ih =>
    have hb := hnr b (by simp)
    have hrest : ∀ x ∈ rest, blockRaises exec language x = false :=
      fun x hx => hnr x (by simp [hx])
    cases hbid : truthy b.block_id with
    | none =>
      have hids : batchIds (b :: rest) = batchIds rest := by
        simp [batchIds, hbid]
      rw [hids] at hnd hdisj
      simp only [executeAllLoop, hbid]
      rw [ih hrest hnd acc hdisj]
      simp [executeAllSpec, hbid]
    | some bid =>
      cases hc : truthy b.code with
      | none =>
        have hids : batchIds (b :: rest) = batchIds rest := by
          simp [batchIds, hbid, hc]
        rw [hids] at hnd hdisj
        simp only [executeAllLoop, hbid, hc]
        rw [ih hrest hnd acc hdisj]
        simp [executeAllSpec, hbid, hc]
      | some c1 =>
        have hids : batchIds (b :: rest) = bid :: batchIds rest := by
          simp [batchIds, hbid, hc]
        rw [hids] at hnd hdisj
        have hbidacc : bid ∉ acc.map Prod.fst := hdisj bid (by simp)
        have hndrest : (batchIds rest).Nodup := (List.nodup_cons.mp hnd).2
        have hbidrest : bid ∉ batchIds rest := (List.nodup_cons.mp hnd).1
        cases hex : exec language c1 bid with
        | raised m =>
          simp [blockRaises, hbid, hc, hex, isRaisedB] at hb
        | ok out =>
          have hdisj2 : ∀ x ∈ batchIds rest,
              x ∉ (acc ++ [(bid, BatchEntry.output out)]).map Prod.fst := by
            intro x hx
            simp only [List.map_append, List.mem_append, List.map_cons,
              List.map_nil, List.mem_singleton, not_or]
            exact ⟨hdisj x (by simp [hx]), fun e => hbidrest (e ▸ hx)⟩
          simp only [executeAllLoop, hbid, hc, hex]
          rw [dictSet_of_not_mem acc bid _ hbidacc,
            ih hrest hndrest _ hdisj2]
          simp [executeAllSpec, hbid, hc, hex]
        | err e =>
          have hdisj2 : ∀ x ∈ batchIds rest,
              x ∉ (acc ++ [(bid, BatchEntry.error e)]).map Prod.fst := by
            intro x hx
            simp only [List.map_append, List.mem_append, List.map_cons,
              List.map_nil, List.mem_singleton, not_or]
            exact ⟨hdisj x (by simp [hx]), fun e2 => hbidrest (e2 ▸ hx)⟩
          simp only [executeAllLoop, hbid, hc, hex]
          rw [dictSet_of_not_mem acc bid _ hbidacc,
            ih hrest hndrest _ hdisj2]
          simp [executeAllSpec, hbid, hc, hex]

/-- Claim C6: the batch endpoint iterates the given blocks in submission
order and degrades per block. Provided no block's execution lets an
exception escape (they all honour the outcome-pair contract) and the
well-formed block identifiers are distinct, the result map is exactly the
per-block map: each well-formed block keeps its own outcome — an error
entry for a failing block, an output entry for the others — and a block
with falsy `code` or `block_id` is skipped with no entry at all. -/
theorem claim6_batch_independence
    (exec : String → String → String → ExecResult) (language : String)
    (blocks : List CodeBlock)
    (hnr : ∀ b ∈ blocks, blockRaises exec language b = false)
    (hnd : (batchIds blocks).Nodup) :
    executeAllPost exec language blocks
      = Except.ok (executeAllSpec exec language blocks) := by
  have h := executeAllLoop_eq exec language blocks hnr hnd [] (by simp)
  simpa [executeAllPost] using h

/-- Concrete instance of claim C6: three blocks where the middle one fails
and a fourth lacks its code; blocks 1 and 3 still get success entries,
block 2 gets an error entry, and the ill-formed block gets no entry. -/
theorem claim6_batch_independence_witness :
    executeAllPost
      (fun _ c _ => if c = "bad" then ExecResult.err "boom"
        else ExecResult.ok "fine")
      "python"
      [⟨some "b1", some "x = 1"⟩, ⟨some "b2", some "bad"⟩,
       ⟨some "b3", some "print(x)"⟩, ⟨some "b4", none⟩]
      = Except.ok
        [("b1", BatchEntry.output "fine"), ("b2", BatchEntry.error "boom"),
         ("b3", BatchEntry.output "fine")] := by
  have h := claim6_batch_independence
    (fun _ c _ => if c = "bad" then ExecResult.err "boom"
      else ExecResult.ok "fine")
    "python"
    [⟨some "b1", some "x = 1"⟩, ⟨some "b2", some "bad"⟩,
     ⟨some "b3", some "print(x)"⟩, ⟨some "b4", none⟩]
    (by decide) (by decide)
  rw [h]
  rfl

/-! ## Claim C4 -/

/-- Claim C4 as written is false: with a pre-existing file named
"temp_file" (the derived temp name for non-Java languages), the `elif` in
the `finally` block removes that file instead of the allocated temp file,
so the file matching the allocated temp name ("/tmp/t.c") still exists
after the call returns even though the call completed normally. -/
theorem claim4_cleanup_counterexample :
    "/tmp/t.c" ∈ (execute_compiled_code "c" "int main() { return 0; }"
        ⟨ShellMsg.timeout, [], ⟨0, "", ""⟩, "/tmp/t.c"⟩
        ⟨fun _ => none, 0, ["temp_file"]⟩).2.fs
    ∧ (execute_compiled_code "c" "int main() { return 0; }"
        ⟨ShellMsg.timeout, [], ⟨0, "", ""⟩, "/tmp/t.c"⟩
        ⟨fun _ => none, 0, ["temp_file"]⟩).1 = ExecResult.ok "" :=
  ⟨by decide, by decide⟩

/-- Claim C4 (amended): the final cleanup step removes at most one file —
the derived temp name (`class_name.java` for Java, `temp_file` otherwise)
if a file by that name exists, otherwise the allocated temp file. Hence on
every exit path the derived temp name does not exist after the call, and
the allocated temp file does not exist after the call provided no file at
the derived name was present beforehand (when one is, the allocated temp
file survives, as the counterexample shows). -/
theorem claim4_cleanup_amended (language code : String) (env : Env)
    (st : SysState) (h1 : env.allocPath ∉ st.fs) (h2 : env.allocPath ≠ "") :
    (¬ (language = "java" ∧ (splitTokens code).length < 3) →
      tmp_file_name_of language code
        ∉ (execute_compiled_code language code env st).2.fs)
    ∧ (tmp_file_name_of language code ∉ st.fs →
      env.allocPath ∉ (execute_compiled_code language code env st).2.fs) := by
  by_cases hjava : language = "java"
  · subst hjava
    by_cases hlen : (splitTokens code).length < 3
    · have hfs : (execute_compiled_code "java" code env st).2.fs = st.fs := by
        simp [execute_compiled_code, hlen]
      constructor
      · intro hok
        exact absurd ⟨rfl, hlen⟩ hok
      · intro _
        rw [hfs]
        exact h1
    · have hname : tmp_file_name_of "java" code ≠ "" := by
        simp only [tmp_file_name_of, if_pos rfl]
        exact append_java_ne_empty _
      have hfs : (execute_compiled_code "java" code env st).2.fs
          = cleanupFs (tmp_file_name_of "java" code) env.allocPath
              (fsAdd (tmp_file_name_of "java" code)
                (fsRemove env.allocPath (fsAdd env.allocPath st.fs))) := by
        simp [execute_compiled_code, hlen, tmp_file_name_of]
      constructor
      · intro _
        rw [hfs]
        exact cleanupFs_name_not_mem hname
      · intro _
        rw [hfs]
        by_cases heq : env.allocPath = tmp_file_name_of "java" code
        · rw [heq]
          exact cleanupFs_name_not_mem hname
        · intro hmem
          have hsub := cleanupFs_subset hmem
          rcases mem_fsAdd.mp hsub with he | hmem2
          · exact heq he
          · exact (mem_fsRemove.mp hmem2).2 rfl
  · have hfs : (execute_compiled_code language code env st).2.fs
        = cleanupFs (tmp_file_name_of language code) env.allocPath
            (fsAdd env.allocPath st.fs) := by
      simp [execute_compiled_code, hjava, tmp_file_name_of]
    have hname : tmp_file_name_of language code = "temp_file" := by
      simp [tmp_file_name_of, hjava]
    constructor
    · intro _
      rw [hfs]
      exact cleanupFs_name_not_mem (by rw [hname]; decide)
    · intro hn
      rw [hfs]
      by_cases heq : env.allocPath = tmp_file_name_of language code
      · rw [heq]
        exact cleanupFs_name_not_mem (by rw [hname]; decide)
      · have hnmem : tmp_file_name_of language code
            ∉ fsAdd env.allocPath st.fs := by
          intro hm
          rcases mem_fsAdd.mp hm with he | hm2
          · exact heq he.symm
          · exact hn hm2
        exact cleanupFs_path_not_mem h2 hnmem

/-- Concrete instance of amended claim C4: with no pre-existing file at
the derived name, a C execution leaves neither the derived name nor the
allocated temp file behind, on the success path and on the Java
exception path alike. -/
theorem claim4_cleanup_amended_witness :
    tmp_file_name_of "c" "int main() { return 0; }"
      ∉ (execute_compiled_code "c" "int main() { return 0; }"
          ⟨ShellMsg.timeout, [], ⟨0, "", ""⟩, "/tmp/t.c"⟩
          ⟨fun _ => none, 0, []⟩).2.fs
    ∧ "/tmp/t.c" ∉ (execute_compiled_code "c" "int main() { return 0; }"
          ⟨ShellMsg.timeout, [], ⟨0, "", ""⟩, "/tmp/t.c"⟩
          ⟨fun _ => none, 0, []⟩).2.fs := by
  have h := claim4_cleanup_amended "c" "int main() { return 0; }"
    ⟨ShellMsg.timeout, [], ⟨0, "", ""⟩, "/tmp/t.c"⟩
    ⟨fun _ => none, 0, []⟩ (by decide) (by decide)
  exact ⟨h.1 (by decide), h.2 (by decide)⟩
